import Mathlib

/-!
Verification of the Tiki product pipeline (scraper + database manager).

The development shallowly embeds the Python source:
  * `Json` models the decoded `__NEXT_DATA__` payload trees (Python dicts,
    lists and scalars as produced by `json.loads`).
  * `find_parent_recursively`, `extract` model the pure tree-search and
    identifier-extraction logic of `scraper.py`.
  * `parseItem`/`collectListing` model the listing-page phase,
    `enrichStep`/`enrichLoop` the enrichment loop of `TikiScraper.scrape`.
  * `upsert_data` models `DatabaseManager.upsert_data` over an explicit
    database state.
Python exceptions are modelled with `Except Unit`/`Option`; Python `round`
is modelled on exact rationals with round-half-to-even.
-/

namespace TikiPipeline

/-- JSON value as decoded by `json.loads`: Python dict / list / scalar.
Numbers are modelled as integers (all numeric fields the pipeline touches
are integral). -/
inductive Json where
  | null : Json
  | bool (b : Bool) : Json
  | num (n : Int) : Json
  | str (s : String) : Json
  | obj (kvs : List (String × Json)) : Json
  | arr (xs : List Json) : Json

/-- Python truthiness of a decoded JSON value (`None`, `False`, `0`, `""`,
`[]`, `{}` are falsy). -/
def Json.truthy : Json → Bool
  | .null => false
  | .bool b => b
  | .num n => n != 0
  | .str s => !s.isEmpty
  | .obj kvs => !kvs.isEmpty
  | .arr xs => !xs.isEmpty

mutual

/-- Structural equality of JSON values (models Python `==` on decoded
payloads; used for dict-key comparisons on seller ids). -/
def Json.beq : Json → Json → Bool
  | .null, .null => true
  | .bool a, .bool b => a == b
  | .num a, .num b => a == b
  | .str a, .str b => a == b
  | .obj a, .obj b => Json.beqFields a b
  | .arr a, .arr b => Json.beqElems a b
  | _, _ => false

def Json.beqFields : List (String × Json) → List (String × Json) → Bool
  | [], [] => true
  | (k1, v1) :: r1, (k2, v2) :: r2 => k1 == k2 && Json.beq v1 v2 && Json.beqFields r1 r2
  | _, _ => false

def Json.beqElems : List Json → List Json → Bool
  | [], [] => true
  | a :: r1, b :: r2 => Json.beq a b && Json.beqElems r1 r2
  | _, _ => false

end

/-- `d.get(k)` on the field list of a Python dict: first binding wins
(`json.loads` never produces duplicate keys). -/
def jGet (kvs : List (String × Json)) (k : String) : Option Json :=
  List.lookup k kvs

/-- `d.get(k, default)`. -/
def jGetD (kvs : List (String × Json)) (k : String) (d : Json) : Json :=
  (jGet kvs k).getD d

/-- Does the mapping directly own the key (`k in d` for a dict)? -/
def hasKeyB (j : Json) (k : String) : Bool :=
  match j with
  | .obj kvs => kvs.any (fun p => p.1 == k)
  | _ => false

mutual

/-- `TikiScraper.find_parent_recursively` (scraper.py:121-135): returns the
first mapping, in depth-first order, that directly contains `target_key`. -/
def find_parent_recursively : Json → String → Option Json
  | .obj kvs, k =>
    if kvs.any (fun p => p.1 == k) then some (.obj kvs)
    else findInFields kvs k
  | .arr xs, k => findInElems xs k
  | _, _ => none

/-- The `for value in data_blob.values()` loop of `find_parent_recursively`. -/
def findInFields : List (String × Json) → String → Option Json
  | [], _ => none
  | (_, v) :: rest, k =>
    match find_parent_recursively v k with
    | some r => some r
    | none => findInFields rest k

/-- The `for item in data_blob` loop of `find_parent_recursively`. -/
def findInElems : List Json → String → Option Json
  | [], _ => none
  | x :: rest, k =>
    match find_parent_recursively x k with
    | some r => some r
    | none => findInElems rest k

end

mutual

/-- Specification-side: all mappings of the tree in depth-first preorder
(a mapping itself before its values, dict values in their natural order,
sequence elements in index order). -/
def dfsMaps : Json → List Json
  | .obj kvs => .obj kvs :: dfsMapsFields kvs
  | .arr xs => dfsMapsElems xs
  | _ => []

def dfsMapsFields : List (String × Json) → List Json
  | [] => []
  | (_, v) :: rest => dfsMaps v ++ dfsMapsFields rest

def dfsMapsElems : List Json → List Json
  | [] => []
  | x :: rest => dfsMaps x ++ dfsMapsElems rest

end

example : find_parent_recursively (.obj [("a", .obj [("k", .num 1)])]) "k"
    = some (.obj [("k", .num 1)]) := by rfl

example : dfsMaps (.obj [("a", .obj [("k", .num 1)])])
    = [.obj [("a", .obj [("k", .num 1)])], .obj [("k", .num 1)]] := by rfl

mutual

/-- The recursive search agrees with `find?` over the depth-first preorder
enumeration of the tree's mappings. -/
theorem find_eq_dfs (j : Json) (k : String) :
    find_parent_recursively j k = (dfsMaps j).find? (fun m => hasKeyB m k) := by
  match j with
  | .null | .bool _ | .num _ | .str _ => rfl
  | .obj kvs =>
    rw [find_parent_recursively, dfsMaps, List.find?]
    by_cases h : kvs.any (fun p => p.1 == k)
    · simp [h, hasKeyB]
    · simp only [h, if_neg]
      have : hasKeyB (.obj kvs) k = false := by
        simpa only [hasKeyB, Bool.not_eq_true] using h
      simp [this, findFields_eq_dfs kvs k]
  | .arr xs =>
    rw [find_parent_recursively, dfsMaps]
    exact findElems_eq_dfs xs k

theorem findFields_eq_dfs (kvs : List (String × Json)) (k : String) :
    findInFields kvs k = (dfsMapsFields kvs).find? (fun m => hasKeyB m k) := by
  match kvs with
  | [] => rfl
  | (k0, v) :: rest =>
    rw [findInFields, dfsMapsFields, List.find?_append,
      find_eq_dfs v k, findFields_eq_dfs rest k]
    cases (dfsMaps v).find? (fun m => hasKeyB m k) <;> simp [Option.or]

theorem findElems_eq_dfs (xs : List Json) (k : String) :
    findInElems xs k = (dfsMapsElems xs).find? (fun m => hasKeyB m k) := by
  match xs with
  | [] => rfl
  | x :: rest =>
    rw [findInElems, dfsMapsElems, List.find?_append,
      find_eq_dfs x k, findElems_eq_dfs rest k]
    cases (dfsMaps x).find? (fun m => hasKeyB m k) <;> simp [Option.or]

end

mutual

/-- Every node of the depth-first mapping enumeration is a mapping. -/
theorem dfsMaps_isObj (j : Json) :
    ∀ m ∈ dfsMaps j, ∃ kvs, m = Json.obj kvs := by
  match j with
  | .null | .bool _ | .num _ | .str _ => intro m hm; simp [dfsMaps] at hm
  | .obj kvs =>
    intro m hm
    rw [dfsMaps, List.mem_cons] at hm
    rcases hm with h | h
    · exact ⟨kvs, h⟩
    · exact dfsMapsFields_isObj kvs m h
  | .arr xs =>
    intro m hm
    rw [dfsMaps] at hm
    exact dfsMapsElems_isObj xs m hm

theorem dfsMapsFields_isObj (kvs : List (String × Json)) :
    ∀ m ∈ dfsMapsFields kvs, ∃ fs, m = Json.obj fs := by
  match kvs with
  | [] => intro m hm; simp [dfsMapsFields] at hm
  | (k0, v) :: rest =>
    intro m hm
    rw [dfsMapsFields, List.mem_append] at hm
    rcases hm with h | h
    · exact dfsMaps_isObj v m h
    · exact dfsMapsFields_isObj rest m h

theorem dfsMapsElems_isObj (xs : List Json) :
    ∀ m ∈ dfsMapsElems xs, ∃ fs, m = Json.obj fs := by
  match xs with
  | [] => intro m hm; simp [dfsMapsElems] at hm
  | x :: rest =>
    intro m hm
    rw [dfsMapsElems, List.mem_append] at hm
    rcases hm with h | h
    · exact dfsMaps_isObj x m h
    · exact dfsMapsElems_isObj rest m h

end

/-- A successful search yields a mapping that directly owns the key. -/
theorem find_parent_obj {j : Json} {k : String} {m : Json}
    (h : find_parent_recursively j k = some m) :
    (∃ kvs, m = Json.obj kvs) ∧ hasKeyB m k = true := by
  rw [find_eq_dfs] at h
  have hp := (List.find?_eq_some.mp h).1
  exact ⟨dfsMaps_isObj j m (List.mem_of_find?_eq_some h), hp⟩

/-! ## Identifier extraction (`_get_data_and_ids_from_next_data`, pure part) -/

/-- The `ids` dict built at scraper.py:84-89.  A missing Python-dict key is
`None`, which coincides with JSON `null` after `json.loads`, so missing
lookups are represented by `Json.null`. -/
structure Ids where
  product_id : Json
  spid : Json
  seller_id : Json
  quantity_sold : Json

/-- `(sold_data or {}).get('quantity_sold', {}).get('value', 0)`
(scraper.py:83).  `sold` is the result of the recursive search for
`quantity_sold`; an `AttributeError` (calling `.get` on a non-dict) is the
`Except.error` case, which the enclosing `try` turns into overall failure. -/
def getQuantitySold (sold : Option Json) : Except Unit Json :=
  match sold with
  | none => .ok (.num 0)
  | some (.obj kvs) =>
    match jGet kvs "quantity_sold" with
    | none => .ok (.num 0)
    | some (.obj q) => .ok (jGetD q "value" (.num 0))
    | some _ => .error ()
  | some _ => .error ()

/-- Pure part of `TikiScraper._get_data_and_ids_from_next_data`
(scraper.py:72-97), from the decoded `__NEXT_DATA__` tree to the extracted
ids; `none` is the `(None, None)` failure return (including the
exception-catching path of the surrounding `try`). -/
def extract (j : Json) : Option Ids :=
  let sold := find_parent_recursively j "quantity_sold"
  match find_parent_recursively j "sellerId" with
  | none => none
  | some (.obj kvs) =>
    match getQuantitySold sold with
    | .error _ => none
    | .ok qs =>
      let pid := jGetD kvs "productId" .null
      let sp := jGetD kvs "spid" .null
      let sid := jGetD kvs "sellerId" .null
      if pid.truthy && sp.truthy && sid.truthy then
        some ⟨pid, sp, sid, qs⟩
      else none
  | some _ => none

/-- Specification-side quantity-sold read, phrased as the amended claim
reads: the `quantity_sold.value` path of the quantity-sold block when that
block is found and its `quantity_sold` entry is itself a mapping, `0` when
the block is absent, undefined (error) when the entry is not a mapping. -/
def qsoldSpec (j : Json) : Except Unit Json :=
  getQuantitySold (find_parent_recursively j "quantity_sold")

/-- Specification-side extraction, stated as the amended claim reads:
fails exactly when the `sellerId` block is not found, or the quantity-sold
read is undefined, or one of the three ids is missing/falsy; on success it
returns the exact values present. -/
def specExtract (j : Json) : Option Ids :=
  match find_parent_recursively j "sellerId" with
  | some (.obj kvs) =>
    let pid := jGetD kvs "productId" .null
    let sp := jGetD kvs "spid" .null
    let sid := jGetD kvs "sellerId" .null
    match qsoldSpec j with
    | .error _ => none
    | .ok qs =>
      if pid.truthy && sp.truthy && sid.truthy then
        some ⟨pid, sp, sid, qs⟩
      else none
  | _ => none

/-! ## Listing page phase (`TikiScraper.scrape`, phase 1, scraper.py:152-177) -/

/-- `re.sub(r'\D', '', s)`: keep only decimal digits. -/
def stripNonDigits (s : String) : String :=
  String.mk (s.toList.filter (fun c => c.isDigit))

/-- `int(s)` on a nonempty all-digit string. -/
def natOfDigits (s : String) : Nat :=
  s.toList.foldl (fun acc c => acc * 10 + (c.toNat - 48)) 0

/-- Whitespace as matched by the regex class used in the source. -/
def isSpaceChar (c : Char) : Bool :=
  c == ' ' || c == '\t' || c == '\n' || c == '\r'

/-- Try to match `width:\s*(\d+)%` at the head of the character list. -/
def widthAt (cs : List Char) : Option Nat :=
  if cs.take 6 = "width:".toList then
    let rest := (cs.drop 6).dropWhile isSpaceChar
    let ds := rest.takeWhile (fun c => c.isDigit)
    match rest.drop ds.length with
    | '%' :: _ => if ds.isEmpty then none else some (natOfDigits (String.mk ds))
    | _ => none
  else none

/-- `re.search(r'width:\s*(\d+)%', style)`: first match anywhere. -/
def searchWidthGo : List Char → Option Nat
  | [] => none
  | c :: rest =>
    match widthAt (c :: rest) with
    | some n => some n
    | none => searchWidthGo rest

def searchWidth (s : String) : Option Nat :=
  searchWidthGo s.toList

/-- Python `round` to an integer on an exact rational: round half to even
(non-tie values go to the nearest integer). -/
def pyRoundInt (q : ℚ) : ℤ :=
  let f := q.floor
  if q - f = 1 / 2 then (if f % 2 = 0 then f else f + 1) else (q + 1 / 2).floor

/-- Python `round(x, 1)` on an exact rational. -/
def pyRound1 (q : ℚ) : ℚ :=
  (pyRoundInt (q * 10) : ℚ) / 10

/-- The rating computation of scraper.py:159-166: `0.0` unless the rating
indicator is present and its inline style matches `width:\s*(\d+)%`, in
which case `round((percent / 100) * 5, 1)`. -/
def ratingOfStyle (style : Option String) : ℚ :=
  match style with
  | none => 0
  | some s =>
    match searchWidth s with
    | none => 0
    | some p => pyRound1 ((p : ℚ) / 100 * 5)

/-- One listing entry as seen by the per-item loop: the text of the name
element if found, the text of the price element if found, the `href`
attribute if present, and the inline style of the rating-width indicator if
the rating divs are found. -/
structure ListItem where
  nameText : Option String
  priceText : Option String
  href : Option String
  styleAttr : Option String
deriving DecidableEq

/-- Product stub appended to `scraped_data_from_list_page`. -/
structure Stub where
  Name : String
  Price : Nat
  Link : String
  Rating : ℚ
  ScrapedDate : String
deriving DecidableEq

/-- The body of the per-item loop (scraper.py:153-177).  `none` models the
`except Exception: continue` path: `int('')` when the price text has no
digit, or a `KeyError` when the entry has no `href`. -/
def parseItem (it : ListItem) (now : String) : Option Stub :=
  let priceStr := it.priceText.getD "0"
  let ds := stripNonDigits priceStr
  if ds.isEmpty then none
  else
    match it.href with
    | none => none
    | some hr =>
      some { Name := it.nameText.getD "N/A"
             Price := natOfDigits ds
             Link := "https://tiki.vn" ++ hr
             Rating := ratingOfStyle it.styleAttr
             ScrapedDate := now }

/-- The listing loop: parse failures skip both appends, successes append
the stub and then the link (taken from the stub's `Link` value). -/
def collectGo (now : String) (acc : List Stub × List String) :
    List ListItem → List Stub × List String
  | [] => acc
  | it :: rest =>
    match parseItem it now with
    | none => collectGo now acc rest
    | some st => collectGo now (acc.1 ++ [st], acc.2 ++ [st.Link]) rest

/-- Phase 1 of `TikiScraper.scrape`: `scraped_data_from_list_page` and
`all_product_links` after processing all listing entries. -/
def collectListing (items : List ListItem) (now : String) :
    List Stub × List String :=
  collectGo now ([], []) items

/-! ## Enrichment phase (`TikiScraper.scrape`, scraper.py:182-227)

Python attribute/key errors are the `Except.error` case (no handler wraps
the enrichment loop, so an error aborts the run). -/

/-- `sub in s` for strings. -/
def strContains (s sub : String) : Bool :=
  if sub.isEmpty then true else (s.splitOn sub).length > 1

/-- Python `k in j`: dict-key membership, list membership (a string key can
only equal a string element), substring test; `TypeError` otherwise. -/
def pyContains (k : String) (j : Json) : Except Unit Bool :=
  match j with
  | .obj kvs => .ok (kvs.any (fun p => p.1 == k))
  | .arr xs => .ok (xs.any (fun x => match x with | .str t => t == k | _ => false))
  | .str s => .ok (strContains s k)
  | _ => .error ()

/-- Python `j[k]`: dict lookup (`KeyError` when absent), `TypeError` on a
non-dict. -/
def pySubscript (j : Json) (k : String) : Except Unit Json :=
  match j with
  | .obj kvs =>
    match jGet kvs k with
    | some v => .ok v
    | none => .error ()
  | _ => .error ()

/-- Python `j.get(k, d)`: `AttributeError` on a non-dict. -/
def pyGetD (j : Json) (k : String) (d : Json) : Except Unit Json :=
  match j with
  | .obj kvs => .ok (jGetD kvs k d)
  | _ => .error ()

/-- Python `float(s)` literal parsing (optional sign, digits with an
optional decimal point). -/
def parseDecimal (s : String) : Option ℚ :=
  let cs := s.trim.toList
  let sign : ℚ := if cs.headD ' ' == '-' then -1 else 1
  let cs := if cs.headD ' ' == '-' || cs.headD ' ' == '+' then cs.drop 1 else cs
  let intPart := cs.takeWhile (fun c => c.isDigit)
  let rest := cs.drop intPart.length
  match rest with
  | [] => if intPart.isEmpty then none
          else some (sign * (natOfDigits (String.mk intPart) : ℚ))
  | '.' :: fracs =>
    if fracs.all (fun c => c.isDigit) && !(intPart.isEmpty && fracs.isEmpty) then
      some (sign * ((natOfDigits (String.mk intPart) : ℚ)
        + (natOfDigits (String.mk fracs) : ℚ) / (10 : ℚ) ^ fracs.length))
    else none
  | _ => none

/-- Python `float(x)` on a decoded JSON value. -/
def pyFloat (j : Json) : Except Unit ℚ :=
  match j with
  | .num n => .ok (n : ℚ)
  | .bool b => .ok (if b then 1 else 0)
  | .str s => match parseDecimal s with | some q => .ok q | none => .error ()
  | _ => .error ()

/-- First `(\d+)` match in a string: maximal digit run at the first digit. -/
def firstDigitRun (s : String) : Option Nat :=
  let ds := (s.toList.dropWhile (fun c => !c.isDigit)).takeWhile (fun c => c.isDigit)
  if ds.isEmpty then none else some (natOfDigits (String.mk ds))

/-- Python iteration over a decoded JSON value (`TypeError` when not
iterable; dicts iterate their keys, strings their characters). -/
def pyIter (j : Json) : Except Unit (List Json) :=
  match j with
  | .arr xs => .ok xs
  | .obj kvs => .ok (kvs.map (fun p => .str p.1))
  | .str s => .ok (s.toList.map (fun c => .str (String.mk [c])))
  | _ => .error ()

/-- `timedelta(days=x)`: the argument must_be numeric. -/
def toDays (j : Json) : Except Unit Int :=
  match j with
  | .num n => .ok n
  | .bool b => .ok (if b then 1 else 0)
  | _ => .error ()

/-- The `for info_item in ...` scan of scraper.py:211-217: starting from
`(0.0, 0)`, the first entry whose `type` equals `"review"` sets the brand
rating (`float` of its title) and the review count (first digit run of its
subtitle), then breaks. -/
def scanInfo : List Json → Except Unit (ℚ × Int)
  | [] => .ok (0, 0)
  | item :: rest =>
    match item with
    | .obj kvs =>
      if Json.beq (jGetD kvs "type" .null) (.str "review") then
        match ((match jGet kvs "title" with
                | none => .ok (0 : ℚ)
                | some t => pyFloat t) : Except Unit ℚ) with
        | .error e => .error e
        | .ok rating =>
          match jGetD kvs "sub_title" (.str "") with
          | .str s =>
            match firstDigitRun s with
            | none => .ok (rating, 0)
            | some n => .ok (rating, (n : Int))
          | _ => .error ()
      else scanInfo rest
    | _ => .error ()

/-- A row of `final_brands_details` (scraper.py:219-227).  Dates are day
numbers: `JoinedDate` is `today` minus the `days_since_joined` value. -/
structure BrandRec where
  BrandName : Json
  BrandLink : Json
  IsOfficial : Int
  BrandRating : ℚ
  NumRating : Int
  JoinedDate : Int
  LastScrapedDate : String

/-- Building one brand record from `seller_data` (scraper.py:208-227). -/
def mkBrandRecord (sd : Json) (today : Int) (now : String) :
    Except Unit BrandRec :=
  match sd with
  | .obj kvs =>
    match toDays (jGetD kvs "days_since_joined" (.num 0)) with
    | .error e => .error e
    | .ok days =>
      match pyIter (jGetD kvs "info" (.arr [])) with
      | .error e => .error e
      | .ok items =>
        match scanInfo items with
        | .error e => .error e
        | .ok pr =>
          .ok { BrandName := jGetD kvs "name" (.str "N/A")
                BrandLink := jGetD kvs "url" (.str "N/A")
                IsOfficial := if (jGetD kvs "is_official" .null).truthy then 1 else 0
                BrandRating := pr.1
                NumRating := pr.2
                JoinedDate := today - days
                LastScrapedDate := now }
  | _ => .error ()

/-- scraper.py:201: `brand_json['data']['seller'].get('name', 'N/A') if
brand_json else 'N/A'`. -/
def computeBrandName (bj? : Option Json) : Except Unit Json :=
  match bj? with
  | none => .ok (.str "N/A")
  | some bj =>
    if bj.truthy then
      match pySubscript bj "data" with
      | .error e => .error e
      | .ok d =>
        match pySubscript d "seller" with
        | .error e => .error e
        | .ok s => pyGetD s "name" (.str "N/A")
    else .ok (.str "N/A")

/-- scraper.py:206: `brand_json and 'data' in brand_json and 'seller' in
brand_json['data']` (short-circuiting). -/
def getSellerCond (bj? : Option Json) : Except Unit Bool :=
  match bj? with
  | none => .ok false
  | some bj =>
    if !bj.truthy then .ok false
    else
      match pyContains "data" bj with
      | .error e => .error e
      | .ok false => .ok false
      | .ok true =>
        match pySubscript bj "data" with
        | .error e => .error e
        | .ok d => pyContains "seller" d

/-- scraper.py:208: `seller_data = brand_json['data']['seller']`. -/
def sellerPayload (bj : Json) : Except Unit Json :=
  match pySubscript bj "data" with
  | .error e => .error e
  | .ok d => pySubscript d "seller"

/-- A fully enriched product-history record (the stub mutated at
scraper.py:200-202). -/
structure Enriched where
  Name : String
  Price : Nat
  Link : String
  Rating : ℚ
  ScrapedDate : String
  BrandName : Json
  SoldCount : Json

/-- Abstract per-product network results: the decoded `__NEXT_DATA__`
payload when the product-page fetch and script-tag lookup succeed, and the
decoded seller-API response when that call succeeds. -/
structure EnrichInput where
  payload : Option Json
  brandResp : Option Json

/-- The retained value for a key of the `final_brands_details` dict
(first binding; the loop never overwrites). -/
def brandsLookup (br : List (Json × BrandRec)) (sid : Json) : Option BrandRec :=
  (br.find? (fun p => Json.beq p.1 sid)).map (fun p => p.2)

/-- One iteration of the enrichment loop (scraper.py:187-227) for product
index `i`: `hist` is `final_products_history`, `br` the insertion-ordered
entries of `final_brands_details`. -/
def enrichStep (stubs : List Stub) (today : Int) (now : String) (i : Nat)
    (inp : EnrichInput) (hist : List Enriched) (br : List (Json × BrandRec)) :
    Except Unit (List Enriched × List (Json × BrandRec)) :=
  match inp.payload with
  | none => .ok (hist, br)
  | some j =>
    match extract j with
    | none => .ok (hist, br)
    | some ids =>
      if !j.truthy then .ok (hist, br)
      else if ids.seller_id.truthy then
        match stubs.get? i with
        | none => .error ()
        | some st =>
          match computeBrandName inp.brandResp with
          | .error e => .error e
          | .ok bn =>
            let hist2 := hist ++
              [⟨st.Name, st.Price, st.Link, st.Rating, st.ScrapedDate, bn,
                ids.quantity_sold⟩]
            match getSellerCond inp.brandResp with
            | .error e => .error e
            | .ok false => .ok (hist2, br)
            | .ok true =>
              if (brandsLookup br ids.seller_id).isSome then .ok (hist2, br)
              else
                match inp.brandResp with
                | none => .error ()
                | some bj =>
                  match sellerPayload bj with
                  | .error e => .error e
                  | .ok sd =>
                    match mkBrandRecord sd today now with
                    | .error e => .error e
                    | .ok brec => .ok (hist2, br ++ [(ids.seller_id, brec)])
      else .ok (hist, br)

/-- The enrichment loop over `enumerate(all_product_links)`. -/
def enrichGo (stubs : List Stub) (today : Int) (now : String) :
    List (Nat × EnrichInput) → List Enriched → List (Json × BrandRec) →
    Except Unit (List Enriched × List (Json × BrandRec))
  | [], hist, br => .ok (hist, br)
  | (i, inp) :: rest, hist, br =>
    match enrichStep stubs today now i inp hist br with
    | .error e => .error e
    | .ok hb => enrichGo stubs today now rest hb.1 hb.2

/-- The whole enrichment phase: `final_products_history` and the
insertion-ordered `final_brands_details` entries. -/
def enrichLoop (stubs : List Stub) (inputs : List EnrichInput)
    (today : Int) (now : String) :
    Except Unit (List Enriched × List (Json × BrandRec)) :=
  enrichGo stubs today now inputs.enum [] []

/-! ## Persistence (`DatabaseManager.upsert_data`, database_manager.py:98-166)

The store is modelled as explicit table contents.  `INSERT ... executemany`
followed by `commit` either appends the whole batch (when no row violates a
uniqueness constraint) or — via the caught `pyodbc.IntegrityError` and the
`rollback` — leaves the table as it was before the batch. -/

/-- A row of `BrandDetails` (`BrandID` is the identity column, `BrandName`
is unique). -/
structure BrandRow where
  id : Nat
  name : String
  link : String
  isOfficial : Int
  rating : ℚ
  numRating : Int
  joined : Int
  lastScraped : String
deriving DecidableEq

/-- A row of `brands_df` as passed to `upsert_data`. -/
structure BrandIn where
  name : String
  link : String
  isOfficial : Int
  rating : ℚ
  numRating : Int
  joined : Int
  lastScraped : String
deriving DecidableEq

/-- A row of `history_df` as passed to `upsert_data`. -/
structure HistIn where
  name : String
  price : Int
  sold : Int
  link : String
  rating : ℚ
  scrapedDate : String
  brandName : String
deriving DecidableEq

/-- A row of `TikiProductsHistory`; `(name, brandId, scrapedDate)` is
unique. -/
structure HistRow where
  name : String
  price : Int
  sold : Int
  link : String
  rating : ℚ
  scrapedDate : String
  brandId : Nat
deriving DecidableEq

/-- The natural key of a history row. -/
def HistRow.key (r : HistRow) : String × Nat × String :=
  (r.name, r.brandId, r.scrapedDate)

/-- Database state: both table contents plus the brand identity counter. -/
structure DB where
  brands : List BrandRow
  hist : List HistRow
  nextId : Nat
deriving DecidableEq

/-- The storage uniqueness invariants enforced by the schema
(database_manager.py:52 and 79-85). -/
def DB.ok (s : DB) : Prop :=
  (s.brands.map (fun r => r.name)).Nodup ∧ (s.hist.map HistRow.key).Nodup

instance (s : DB) : Decidable s.ok :=
  inferInstanceAs (Decidable (_ ∧ _))

/-- `pd.merge(brands_df, existing, on='BrandName', how='left', indicator)`
followed by the `left_only` filter (database_manager.py:114-115): exactly
the input rows whose name matches no stored brand. -/
def selectNewBrands (s : DB) (brands : List BrandIn) : List BrandIn :=
  brands.filter (fun b => !(s.brands.any (fun e => e.name == b.name)))

/-- Identity-column assignment for a batch of inserted brand rows. -/
def assignBrandIds (n0 : Nat) : List BrandIn → List BrandRow
  | [] => []
  | b :: rest =>
    ⟨n0, b.name, b.link, b.isOfficial, b.rating, b.numRating, b.joined,
      b.lastScraped⟩ :: assignBrandIds (n0 + 1) rest

/-- `executemany` + `commit` of a brand batch: appends all rows unless some
row violates the `BrandName` uniqueness constraint, in which case the
transaction is rolled back (`none`). -/
def tryInsertBrands (s : DB) (rows : List BrandIn) : Option DB :=
  if (rows.map (fun b => b.name)).Nodup ∧
      ∀ b ∈ rows, ∀ e ∈ s.brands, e.name ≠ b.name then
    some { brands := s.brands ++ assignBrandIds s.nextId rows
           hist := s.hist
           nextId := s.nextId + rows.length }
  else none

/-- Step 1 of `upsert_data` (database_manager.py:111-133): `none` is the
`pyodbc.IntegrityError` path (which skips the rest of the `try` body). -/
def brandPhase (s : DB) (brands : List BrandIn) : Option DB :=
  let newB := selectNewBrands s brands
  if newB.isEmpty then some s else tryInsertBrands s newB

/-- `pd.merge(history_df, all_brands, on='BrandName', how='left')`
(database_manager.py:138): each input row paired with the id of each
matching brand row (`none` = NaN when no brand matches). -/
def mergeBrandIds (s : DB) (histIn : List HistIn) : List (HistIn × Option Nat) :=
  histIn.flatMap (fun h =>
    let ms := s.brands.filter (fun e => e.name == h.brandName)
    if ms.isEmpty then [(h, none)] else ms.map (fun e => (h, some e.id)))

/-- The dedup key used by `drop_duplicates(subset=['Name','BrandID',
'ScrapedDate'], keep='first')`. -/
def dedupKey (p : HistIn × Option Nat) : String × Option Nat × String :=
  (p.1.name, p.2, p.1.scrapedDate)

/-- `drop_duplicates(..., keep='first')`: keep a row only when its dedup
key has not been seen earlier in the batch. -/
def dedupFirstGo (seen : List (String × Option Nat × String)) :
    List (HistIn × Option Nat) → List (HistIn × Option Nat)
  | [] => []
  | p :: rest =>
    if dedupKey p ∈ seen then dedupFirstGo seen rest
    else p :: dedupFirstGo (dedupKey p :: seen) rest

def dedupFirst (l : List (HistIn × Option Nat)) : List (HistIn × Option Nat) :=
  dedupFirstGo [] l

/-- Steps at database_manager.py:138-147: merge in the brand ids, drop
in-batch duplicates of the natural key, drop rows with no matching brand,
select the fact columns. -/
def prepareHist (s : DB) (histIn : List HistIn) : List HistRow :=
  (dedupFirst (mergeBrandIds s histIn)).filterMap (fun p =>
    match p.2 with
    | none => none
    | some bid => some ⟨p.1.name, p.1.price, p.1.sold, p.1.link, p.1.rating,
        p.1.scrapedDate, bid⟩)

/-- `executemany` + `commit` of the history batch, rolled back as a whole
on a uniqueness violation. -/
def tryInsertHist (s : DB) (rows : List HistRow) : Option DB :=
  if (rows.map HistRow.key).Nodup ∧
      ∀ r ∈ rows, ∀ e ∈ s.hist, e.key ≠ r.key then
    some { s with hist := s.hist ++ rows }
  else none

/-- Step 2 of `upsert_data` (database_manager.py:136-162). -/
def histPhase (s1 : DB) (histIn : List HistIn) : DB :=
  let final := prepareHist s1 histIn
  if final.isEmpty then s1
  else
    match tryInsertHist s1 final with
    | none => s1
    | some s2 => s2

/-- `DatabaseManager.upsert_data` (database_manager.py:98-166): early
return on an empty history frame; with an empty brand frame the
`pd.merge(brands_df, ..., on='BrandName')` at line 114 raises `KeyError`
(`brands_df` built from an empty record list has no columns), which the
generic `except Exception` handler swallows before anything is written;
otherwise the brand phase (an `IntegrityError` there skips the history
phase and rolls back) and then the history phase run. -/
def upsert_data (s : DB) (brands : List BrandIn) (histIn : List HistIn) : DB :=
  if histIn.isEmpty then s
  else if brands.isEmpty then s
  else
    match brandPhase s brands with
    | none => s
    | some s1 => histPhase s1 histIn

/-! ## Claims -/

/-- C10: with an empty product-history batch, `upsert_data` returns at once
and performs no storage operation: the state (including the brand table) is
unchanged, whatever the brand batch contains. -/
theorem upsert_empty_history_noop (s : DB) (brands : List BrandIn) :
    upsert_data s brands [] = s := rfl

/-- C3: `find_parent_recursively` returns exactly the first mapping, in
depth-first traversal order (a mapping itself before its values in their
natural order, sequence elements in index order), that directly contains
the target key among its own keys; it returns `none` precisely when no
mapping in the tree contains the key.  (The embedding is a pure total
function, so the input is not mutated and the search terminates on every
finite tree.) -/
theorem find_parent_first_in_dfs_order (j : Json) (k : String) :
    find_parent_recursively j k = (dfsMaps j).find? (fun m => hasKeyB m k) ∧
    (find_parent_recursively j k = none ↔
      (dfsMaps j).all (fun m => !hasKeyB m k) = true) := by
  refine ⟨find_eq_dfs j k, ?_⟩
  rw [find_eq_dfs j k]
  constructor
  · intro h
    rw [List.all_eq_true]
    intro m hm
    have := List.find?_eq_none.mp h m hm
    simpa using this
  · intro h
    rw [List.find?_eq_none]
    intro m hm hpm
    have := List.all_eq_true.mp h m hm
    simp [hpm] at this

/-- The field list of the C4 counterexample payload. -/
def c4kvs : List (String × Json) :=
  [("quantity_sold", .num 5), ("productId", .num 1), ("spid", .num 2),
   ("sellerId", .num 3)]

/-- C4 counterexample: a payload whose `sellerId` mapping is found and
whose three ids are all present and truthy, yet extraction fails — because
the `quantity_sold` entry of the quantity-sold block is not itself a
mapping, so the `.get('value', 0)` chain raises and the surrounding `try`
returns the failure result.  This refutes the claimed "fails exactly when"
equivalence. -/
theorem extract_fails_on_nonmapping_quantity_sold :
    extract (.obj c4kvs) = none ∧
    find_parent_recursively (.obj c4kvs) "sellerId" = some (.obj c4kvs) ∧
    ((jGetD c4kvs "productId" .null).truthy &&
     (jGetD c4kvs "spid" .null).truthy &&
     (jGetD c4kvs "sellerId" .null).truthy) = true := ⟨rfl, rfl, rfl⟩

/-- C4 (amended): extraction fails exactly when the `sellerId` mapping is
not found, or the quantity-sold read is undefined (the `quantity_sold`
block was found but its `quantity_sold` entry is not a mapping), or one of
`productId`/`spid`/`sellerId` in the `sellerId` mapping is missing or
falsy; on success it returns the exact values present there, with
`quantity_sold` read from the `quantity_sold.value` path when the block is
found and `0` when it is absent — as packaged by `specExtract`. -/
theorem extract_characterization (j : Json) : extract j = specExtract j := by
  rw [extract, specExtract, qsoldSpec]
  cases h : find_parent_recursively j "sellerId" with
  | none => rfl
  | some m =>
    obtain ⟨⟨kvs, rfl⟩, -⟩ := find_parent_obj h
    cases getQuantitySold (find_parent_recursively j "quantity_sold") <;> rfl

/-- C9: alignment invariant of the listing phase.  From any aligned
accumulator state (links = stub links), the collection loop preserves
alignment; in particular after the whole listing phase the link list and
the stub list have equal length and the i-th link is the `Link` field of
the i-th stub, which is what makes `scraped_data_from_list_page[i]` in the
enrichment loop return the stub of the link being enriched (a per-entry
parse failure skips both appends together). -/
theorem listing_links_stub_alignment (items : List ListItem) (now : String)
    (acc : List Stub × List String) (h : acc.2 = acc.1.map Stub.Link) :
    (collectGo now acc items).2 = (collectGo now acc items).1.map Stub.Link ∧
    (collectListing items now).2.length = (collectListing items now).1.length ∧
    ∀ i, (collectListing items now).2.get? i
        = ((collectListing items now).1.get? i).map Stub.Link := by
  have main : ∀ (its : List ListItem) (a : List Stub × List String),
      a.2 = a.1.map Stub.Link →
      (collectGo now a its).2 = (collectGo now a its).1.map Stub.Link := by
    intro its
    induction its with
    | nil => intro a ha; exact ha
    | cons it rest ih =>
      intro a ha
      rw [collectGo]
      cases hp : parseItem it now with
      | none => exact ih a ha
      | some st =>
        refine ih (a.1 ++ [st], a.2 ++ [st.Link]) ?_
        simp [ha]
  have h0 : (collectListing items now).2
      = (collectListing items now).1.map Stub.Link :=
    main items ([], []) rfl
  refine ⟨main items acc h, ?_, ?_⟩
  · rw [h0, List.length_map]
  · intro i
    rw [h0, List.get?_map]

theorem listing_links_stub_alignment_witness :
    (([] : List String) = ([] : List Stub).map Stub.Link) ∧
    (collectGo "d" ([], []) [⟨some "X", some "100", some "/p", none⟩]).2
      = (collectGo "d" ([], []) [⟨some "X", some "100", some "/p", none⟩]).1.map
          Stub.Link :=
  ⟨rfl, (listing_links_stub_alignment
      [⟨some "X", some "100", some "/p", none⟩] "d" ([], []) rfl).1⟩

theorem ratFloor_eq_intFloor (q : ℚ) : q.floor = ⌊q⌋ :=
  (Rat.floor_def' q).trans Rat.floor_def.symm

theorem pyRound1_eighty : pyRound1 ((80 : ℚ) / 100 * 5) = 4 := by
  have h : ((80 : ℚ) / 100 * 5 * 10) = 40 := by norm_num
  rw [pyRound1, pyRoundInt, h]
  simp only [ratFloor_eq_intFloor]
  norm_num [Int.floor_eq_iff]

/-- C7: for every listing entry included in the output, the price is the
integer read from the digit-only strip of the displayed price text (the
absent-price default being the string "0") and the rating is
`round(percent / 100 * 5, 1)` of the width-percentage indicator, `0.0`
when the indicator is absent; concretely "1.234.567₫" parses to 1234567,
"width: 80%" yields 4.0, and an entry without a price element is still
included with price 0. -/
theorem listing_price_and_rating (it : ListItem) (now : String) (st : Stub)
    (h : parseItem it now = some st) :
    (st.Price = natOfDigits (stripNonDigits (it.priceText.getD "0")) ∧
     st.Rating = ratingOfStyle it.styleAttr) ∧
    (it.priceText = none → st.Price = 0) ∧
    stripNonDigits "1.234.567₫" = "1234567" ∧
    natOfDigits "1234567" = 1234567 ∧
    pyRound1 ((80 : ℚ) / 100 * 5) = 4 ∧
    (parseItem ⟨some "X", some "1.234.567₫", some "/p", some "width: 80%"⟩ "d")
      = some ⟨"X", 1234567, "https://tiki.vn/p", pyRound1 ((80 : ℚ) / 100 * 5),
          "d"⟩ ∧
    ratingOfStyle (some "width: 80%") = 4 ∧
    (parseItem ⟨some "X", none, some "/p", none⟩ "d")
      = some ⟨"X", 0, "https://tiki.vn/p", 0, "d"⟩ := by
  have hfields : st.Price = natOfDigits (stripNonDigits (it.priceText.getD "0"))
      ∧ st.Rating = ratingOfStyle it.styleAttr := by
    rw [parseItem] at h
    by_cases hds : (stripNonDigits (it.priceText.getD "0")).isEmpty
    · rw [if_pos hds] at h; exact absurd h (by simp)
    · rw [if_neg hds] at h
      cases hh : it.href with
      | none => rw [hh] at h; exact absurd h (by simp)
      | some hr =>
        rw [hh] at h
        have := (Option.some_inj.mp h).symm
        subst this
        exact ⟨rfl, rfl⟩
  refine ⟨hfields, ?_, rfl, rfl, pyRound1_eighty, rfl, ?_, rfl⟩
  · intro hp
    rw [hfields.1, hp]
    rfl
  · show ratingOfStyle (some "width: 80%") = 4
    have : searchWidth "width: 80%" = some 80 := rfl
    rw [ratingOfStyle, this]
    exact pyRound1_eighty

theorem listing_price_and_rating_witness :
    parseItem ⟨some "X", some "1.234.567₫", some "/p", some "width: 80%"⟩ "d"
      = some ⟨"X", 1234567, "https://tiki.vn/p", pyRound1 ((80 : ℚ) / 100 * 5),
          "d"⟩ ∧
    (⟨"X", 1234567, "https://tiki.vn/p", pyRound1 ((80 : ℚ) / 100 * 5),
        "d"⟩ : Stub).Price
      = natOfDigits (stripNonDigits "1.234.567₫") :=
  ⟨rfl,
    (listing_price_and_rating
      ⟨some "X", some "1.234.567₫", some "/p", some "width: 80%"⟩ "d"
      ⟨"X", 1234567, "https://tiki.vn/p", pyRound1 ((80 : ℚ) / 100 * 5), "d"⟩
      rfl).1.1⟩

/-- Payload of the concrete enrichment examples: a complete id block. -/
def jP : Json := .obj [("productId", .num 1), ("spid", .num 2), ("sellerId", .num 7)]

/-- Stub of the concrete enrichment examples. -/
def st0 : Stub := ⟨"P", 100, "https://tiki.vn/p", 0, "d"⟩

/-- C6 counterexample: a run in which the seller-detail API call fails.
The product is kept in the history output, but its brand name is the
sentinel `"N/A"`, not `"unknown"` as claimed. -/
theorem api_failure_sentinel_is_na :
    enrichLoop [st0] [⟨some jP, none⟩] 0 "d"
      = .ok ([⟨"P", 100, "https://tiki.vn/p", 0, "d", .str "N/A", .num 0⟩], [])
    ∧ Json.str "N/A" ≠ Json.str "unknown" := by
  refine ⟨rfl, ?_⟩
  intro h
  injection h with h2
  exact absurd h2 (by decide)

/-- C6 (amended): when the seller-detail API call for a product fails in
any of the ways that make `_get_brand_details_via_api` return no data
(transport error, non-2xx status, undecodable body — modelled as
`brandResp = none`), the product is still kept in the history output with
its `BrandName` set to the sentinel `"N/A"`, no brand entry is recorded,
and the loop continues with the remaining products (the failure never
aborts the run). -/
theorem api_failure_keeps_product_with_na
    (stubs : List Stub) (today : Int) (now : String) (i : Nat) (j : Json)
    (ids : Ids) (st : Stub) (rest : List (Nat × EnrichInput))
    (hist : List Enriched) (br : List (Json × BrandRec))
    (hx : extract j = some ids) (hj : j.truthy = true)
    (hsid : ids.seller_id.truthy = true) (hst : stubs.get? i = some st) :
    enrichGo stubs today now ((i, ⟨some j, none⟩) :: rest) hist br
      = enrichGo stubs today now rest
          (hist ++ [⟨st.Name, st.Price, st.Link, st.Rating, st.ScrapedDate,
            Json.str "N/A", ids.quantity_sold⟩]) br := by
  rw [enrichGo, enrichStep]
  simp only [hx, hj, hsid, hst]
  rfl

theorem api_failure_keeps_product_with_na_witness :
    enrichGo [st0] 0 "d" [(0, ⟨some jP, none⟩)] [] []
      = enrichGo [st0] 0 "d" []
          [⟨st0.Name, st0.Price, st0.Link, st0.Rating, st0.ScrapedDate,
            Json.str "N/A", Json.num 0⟩] [] :=
  api_failure_keeps_product_with_na [st0] 0 "d" 0 jP ⟨.num 1, .num 2, .num 7, .num 0⟩
    st0 [] [] [] rfl rfl rfl rfl

/-- One enrichment step never removes or overwrites a brand entry: its
output accumulator is the input one, possibly extended with one entry
whose seller id was not yet bound. -/
theorem enrichStep_brands_shape
    (stubs : List Stub) (today : Int) (now : String) (i : Nat)
    (inp : EnrichInput) (hist : List Enriched) (br : List (Json × BrandRec))
    (hb : List Enriched × List (Json × BrandRec))
    (hs : enrichStep stubs today now i inp hist br = .ok hb) :
    hb.2 = br ∨ ∃ sid brec, hb.2 = br ++ [(sid, brec)] := by
  rw [enrichStep] at hs
  repeat' split at hs
  all_goals first
    | (cases hs; exact Or.inl rfl)
    | (cases hs; exact Or.inr ⟨_, _, rfl⟩)
    | simp at hs

/-- C1 (amended): within a single run the in-memory brand accumulator has
first-write-wins semantics: once a brand record is bound to a seller id,
every later iteration of the enrichment loop leaves that binding
unchanged, so the record retained for a seller id is the one produced by
the first occurrence that stores a record — not the last. -/
theorem brand_accumulator_first_write_wins
    (stubs : List Stub) (today : Int) (now : String)
    (pending : List (Nat × EnrichInput)) (hist : List Enriched)
    (br : List (Json × BrandRec)) (sid : Json) (r : BrandRec)
    (out : List Enriched × List (Json × BrandRec))
    (hl : brandsLookup br sid = some r)
    (hrun : enrichGo stubs today now pending hist br = .ok out) :
    brandsLookup out.2 sid = some r := by
  induction pending generalizing hist br with
  | nil =>
    rw [enrichGo] at hrun
    cases hrun
    exact hl
  | cons p rest ih =>
    obtain ⟨i, inp⟩ := p
    rw [enrichGo] at hrun
    cases hs : enrichStep stubs today now i inp hist br with
    | error e => rw [hs] at hrun; exact absurd hrun (by simp)
    | ok hb =>
      rw [hs] at hrun
      rcases enrichStep_brands_shape stubs today now i inp hist br hb hs with
        hsh | ⟨sid2, brec2, hsh⟩
      · exact ih hb.1 hb.2 (hsh ▸ hl) hrun
      · refine ih hb.1 hb.2 ?_ hrun
        rw [hsh, brandsLookup, List.find?_append]
        rw [brandsLookup] at hl
        cases hf : List.find? (fun p => Json.beq p.1 sid) br with
        | none => rw [hf] at hl; exact absurd hl (by simp)
        | some q => rw [hf] at hl; simpa using hl

theorem brand_accumulator_first_write_wins_witness :
    brandsLookup [(Json.num 7, (⟨.str "A", .str "N/A", 0, 0, 0, 0, "d"⟩ : BrandRec))]
        (Json.num 7)
      = some ⟨.str "A", .str "N/A", 0, 0, 0, 0, "d"⟩ ∧
    brandsLookup
        ((enrichGo [st0] 0 "d" []
          [] [(Json.num 7, ⟨.str "A", .str "N/A", 0, 0, 0, 0, "d"⟩)]).toOption.getD
            ([], [])).2 (Json.num 7)
      = some ⟨.str "A", .str "N/A", 0, 0, 0, 0, "d"⟩ :=
  ⟨rfl,
    brand_accumulator_first_write_wins [st0] 0 "d" [] []
      [(Json.num 7, ⟨.str "A", .str "N/A", 0, 0, 0, 0, "d"⟩)] (Json.num 7)
      ⟨.str "A", .str "N/A", 0, 0, 0, 0, "d"⟩
      ([], [(Json.num 7, ⟨.str "A", .str "N/A", 0, 0, 0, 0, "d"⟩)]) rfl rfl⟩

/-- Seller-API response naming the seller "A". -/
def bjA : Json := .obj [("data", .obj [("seller", .obj [("name", .str "A")])])]

/-- Seller-API response naming the seller "B". -/
def bjB : Json := .obj [("data", .obj [("seller", .obj [("name", .str "B")])])]

/-- C1 counterexample: two enriched products with the same seller id 7,
the first occurrence producing a record named "A" and the last occurrence
one named "B".  The accumulator retains the record of the FIRST
occurrence ("A"), while the record the last occurrence produces is the
distinct record named "B" — refuting last-write-wins. -/
theorem brand_accumulator_not_last_write :
    (∃ hist, enrichLoop [st0, st0] [⟨some jP, some bjA⟩, ⟨some jP, some bjB⟩] 0 "d"
      = .ok (hist, [(.num 7, ⟨.str "A", .str "N/A", 0, 0, 0, 0, "d"⟩)])) ∧
    (sellerPayload bjB = .ok (.obj [("name", .str "B")]) ∧
     mkBrandRecord (.obj [("name", .str "B")]) 0 "d"
       = .ok ⟨.str "B", .str "N/A", 0, 0, 0, 0, "d"⟩) ∧
    (⟨.str "A", .str "N/A", 0, 0, 0, 0, "d"⟩ : BrandRec)
      ≠ ⟨.str "B", .str "N/A", 0, 0, 0, 0, "d"⟩ := by
  refine ⟨⟨[⟨"P", 100, "https://tiki.vn/p", 0, "d", .str "A", .num 0⟩,
            ⟨"P", 100, "https://tiki.vn/p", 0, "d", .str "B", .num 0⟩], rfl⟩,
    ⟨rfl, rfl⟩, ?_⟩
  intro h
  have h2 : Json.str "A" = Json.str "B" := congrArg BrandRec.BrandName h
  injection h2 with h3
  exact absurd h3 (by decide)

/-! ### Structural lemmas about the persist step -/

theorem tryInsertBrands_some {s : DB} {rows : List BrandIn} {s1 : DB}
    (h : tryInsertBrands s rows = some s1) :
    s1.brands = s.brands ++ assignBrandIds s.nextId rows ∧ s1.hist = s.hist ∧
    (rows.map (fun b => b.name)).Nodup ∧
    (∀ b ∈ rows, ∀ e ∈ s.brands, e.name ≠ b.name) := by
  rw [tryInsertBrands] at h
  split at h
  · cases h
    next hc => exact ⟨rfl, rfl, hc.1, hc.2⟩
  · exact absurd h (by simp)

theorem brandPhase_some_cases {s : DB} {b : List BrandIn} {s1 : DB}
    (h : brandPhase s b = some s1) :
    (selectNewBrands s b = [] ∧ s1 = s) ∨
    tryInsertBrands s (selectNewBrands s b) = some s1 := by
  rw [brandPhase] at h
  split at h
  · next he => cases h; exact Or.inl ⟨List.isEmpty_iff.mp he, rfl⟩
  · exact Or.inr h

theorem brandPhase_hist {s : DB} {b : List BrandIn} {s1 : DB}
    (h : brandPhase s b = some s1) : s1.hist = s.hist := by
  rcases brandPhase_some_cases h with ⟨-, rfl⟩ | h2
  · rfl
  · exact (tryInsertBrands_some h2).2.1

theorem assignBrandIds_names (rows : List BrandIn) :
    ∀ n, (assignBrandIds n rows).map (fun r => r.name)
      = rows.map (fun b => b.name) := by
  induction rows with
  | nil => intro n; rfl
  | cons b rest ih =>
    intro n
    rw [assignBrandIds, List.map_cons, List.map_cons, ih]

/-- After a successful brand phase, every input brand name is present in
the resulting brand table. -/
theorem brandPhase_names {s : DB} {b : List BrandIn} {s1 : DB}
    (h : brandPhase s b = some s1) :
    ∀ bi ∈ b, s1.brands.any (fun e => e.name == bi.name) = true := by
  intro bi hbi
  rcases brandPhase_some_cases h with ⟨hsel, rfl⟩ | h2
  · have := List.filter_eq_nil.mp hsel bi hbi
    simpa using this
  · obtain ⟨hbr, -, -, -⟩ := tryInsertBrands_some h2
    rw [hbr, List.any_append]
    by_cases hin : s.brands.any (fun e => e.name == bi.name)
    · simp [hin]
    · have hmem : bi ∈ selectNewBrands s b := by
        rw [selectNewBrands, List.mem_filter]
        exact ⟨hbi, by simpa using hin⟩
      have hname : bi.name ∈ (assignBrandIds s.nextId
          (selectNewBrands s b)).map (fun r => r.name) := by
        rw [assignBrandIds_names]
        exact List.mem_map_of_mem _ hmem
      obtain ⟨e, he, hename⟩ := List.mem_map.mp hname
      have : (assignBrandIds s.nextId (selectNewBrands s b)).any
          (fun e => e.name == bi.name) = true :=
        List.any_eq_true.mpr ⟨e, he, by simp [hename]⟩
      simp [this]

/-- When every input brand name is already stored, the brand phase is a
successful no-op. -/
theorem brandPhase_of_names {s : DB} {b : List BrandIn}
    (h : ∀ bi ∈ b, s.brands.any (fun e => e.name == bi.name) = true) :
    brandPhase s b = some s := by
  have hsel : selectNewBrands s b = [] := by
    rw [selectNewBrands, List.filter_eq_nil]
    intro bi hbi
    simp [h bi hbi]
  rw [brandPhase, hsel]
  rfl

theorem tryInsertHist_some {s : DB} {rows : List HistRow} {s2 : DB}
    (h : tryInsertHist s rows = some s2) :
    s2.brands = s.brands ∧ s2.hist = s.hist ++ rows ∧ s2.nextId = s.nextId ∧
    (rows.map HistRow.key).Nodup ∧
    (∀ r ∈ rows, ∀ e ∈ s.hist, e.key ≠ r.key) := by
  rw [tryInsertHist] at h
  split at h
  · cases h
    next hc => exact ⟨rfl, rfl, rfl, hc.1, hc.2⟩
  · exact absurd h (by simp)

theorem histPhase_cases (s1 : DB) (h : List HistIn) :
    ((prepareHist s1 h).isEmpty = true ∧ histPhase s1 h = s1) ∨
    ((prepareHist s1 h).isEmpty = false ∧
      tryInsertHist s1 (prepareHist s1 h) = none ∧ histPhase s1 h = s1) ∨
    ((prepareHist s1 h).isEmpty = false ∧
      tryInsertHist s1 (prepareHist s1 h) = some (histPhase s1 h)) := by
  rw [histPhase]
  split
  · next he => exact Or.inl ⟨he, rfl⟩
  · next he =>
    cases ht : tryInsertHist s1 (prepareHist s1 h) with
    | none => exact Or.inr (Or.inl ⟨Bool.eq_false_iff.mpr he, rfl, rfl⟩)
    | some s2 => exact Or.inr (Or.inr ⟨Bool.eq_false_iff.mpr he, rfl⟩)

theorem histPhase_brands (s1 : DB) (h : List HistIn) :
    (histPhase s1 h).brands = s1.brands := by
  rcases histPhase_cases s1 h with ⟨-, he⟩ | ⟨-, -, he⟩ | ⟨-, ht⟩
  · rw [he]
  · rw [he]
  · exact (tryInsertHist_some ht).1

theorem prepareHist_congr {r s1 : DB} (hbr : r.brands = s1.brands)
    (h : List HistIn) : prepareHist r h = prepareHist s1 h := by
  rw [prepareHist, prepareHist, mergeBrandIds, mergeBrandIds]
  simp only [hbr]

theorem upsert_unfold {s : DB} {b : List BrandIn} {h : List HistIn} {s1 : DB}
    (hne : h.isEmpty = false) (hbne : b.isEmpty = false)
    (hb : brandPhase s b = some s1) :
    upsert_data s b h = histPhase s1 h := by
  simp [upsert_data, hne, hbne, hb]

theorem upsert_unfold_none {s : DB} {b : List BrandIn} {h : List HistIn}
    (hne : h.isEmpty = false) (hb : brandPhase s b = none) :
    upsert_data s b h = s := by
  by_cases hbne : b.isEmpty <;> simp [upsert_data, hne, hbne, hb]

theorem upsert_empty_brands (s : DB) (b : List BrandIn) (h : List HistIn)
    (hbe : b.isEmpty = true) : upsert_data s b h = s := by
  by_cases hne : h.isEmpty = true <;> simp [upsert_data, hne, hbe]

/-- Stored brand table of the C5 example: names "A" and "B". -/
def exDB : DB :=
  ⟨[⟨0, "A", "", 0, 0, 0, 0, ""⟩, ⟨1, "B", "", 0, 0, 0, 0, ""⟩], [], 2⟩

/-- New brand batch rows of the C5 example. -/
def brandInA : BrandIn := ⟨"A", "", 0, 0, 0, 0, ""⟩

def brandInC : BrandIn := ⟨"C", "", 0, 0, 0, 0, ""⟩

/-- History row of the C5 example (resolves to brand "C"). -/
def exHist1 : HistIn := ⟨"p", 1, 0, "", 0, "d", "C"⟩

/-- C5: the persist step selects for insertion exactly the new brand rows
whose name is not already stored (`selectNewBrands`), and only ever
appends them: the brand table after `upsert_data` is either unchanged or
the old table followed by the selected rows, so existing brand rows are
never updated in place.  Concretely, with stored names A and B and a batch
containing names A and C, only the C record is inserted. -/
theorem upsert_brand_selection_exact (s : DB) (b : List BrandIn)
    (h : List HistIn) :
    ((upsert_data s b h).brands = s.brands ∨
     (upsert_data s b h).brands
       = s.brands ++ assignBrandIds s.nextId (selectNewBrands s b)) ∧
    selectNewBrands exDB [brandInA, brandInC] = [brandInC] ∧
    (upsert_data exDB [brandInA, brandInC] [exHist1]).brands
      = exDB.brands ++ [⟨2, "C", "", 0, 0, 0, 0, ""⟩] := by
  refine ⟨?_, rfl, rfl⟩
  cases hbe : b.isEmpty with
  | true => rw [upsert_empty_brands s b h hbe]; exact Or.inl rfl
  | false =>
    cases hne : h.isEmpty with
    | true =>
      have : h = [] := List.isEmpty_iff.mp hne
      subst this
      exact Or.inl rfl
    | false =>
      cases hb : brandPhase s b with
      | none => rw [upsert_unfold_none hne hb]; exact Or.inl rfl
      | some s1 =>
        rw [upsert_unfold hne hbe hb, histPhase_brands]
        rcases brandPhase_some_cases hb with ⟨-, rfl⟩ | h2
        · exact Or.inl rfl
        · exact Or.inr (tryInsertBrands_some h2).1

/-- Stored state of the C8 witness: brand "A" (id 0) and one history row
with key `("p", 0, "d")`. -/
def exDB8 : DB :=
  ⟨[⟨0, "A", "", 0, 0, 0, 0, ""⟩], [⟨"p", 1, 0, "", 0, "d", 0⟩], 1⟩

/-- C8: if some row of the prepared history batch collides on the
`(Name, BrandID, ScrapedDate)` key with a stored history row, the whole
history insert is rolled back: the persist step returns the state left by
the brand phase — its history is exactly the pre-call history (so no row
of the batch is persisted, including genuinely new ones), while the brand
inserts committed by the brand phase remain. -/
theorem history_conflict_rolls_back_batch (s : DB) (b : List BrandIn)
    (h : List HistIn) (s1 : DB)
    (hne : h.isEmpty = false) (hbne : b.isEmpty = false)
    (hb : brandPhase s b = some s1)
    (hconf : ∃ r ∈ prepareHist s1 h, ∃ e ∈ s1.hist, e.key = r.key) :
    upsert_data s b h = s1 ∧ s1.hist = s.hist := by
  refine ⟨?_, brandPhase_hist hb⟩
  rw [upsert_unfold hne hbne hb]
  obtain ⟨r, hr, e, he, hk⟩ := hconf
  rcases histPhase_cases s1 h with ⟨hfe, heq⟩ | ⟨-, -, heq⟩ | ⟨-, ht⟩
  · exact heq
  · exact heq
  · exfalso
    obtain ⟨-, -, -, -, hall⟩ := tryInsertHist_some ht
    exact hall r hr e he hk

theorem history_conflict_rolls_back_batch_witness :
    upsert_data exDB8 [brandInA]
        [⟨"p", 1, 0, "", 0, "d", "A"⟩, ⟨"q", 1, 0, "", 0, "d", "A"⟩]
        = exDB8 ∧ exDB8.hist = exDB8.hist :=
  history_conflict_rolls_back_batch exDB8 [brandInA]
    [⟨"p", 1, 0, "", 0, "d", "A"⟩, ⟨"q", 1, 0, "", 0, "d", "A"⟩] exDB8
    rfl rfl rfl (by decide)

/-- A successful brand phase preserves the storage uniqueness invariants. -/
theorem brandPhase_ok {s : DB} {b : List BrandIn} {s1 : DB}
    (hb : brandPhase s b = some s1) (hok : DB.ok s) : DB.ok s1 := by
  rcases brandPhase_some_cases hb with ⟨-, rfl⟩ | h2
  · exact hok
  · obtain ⟨hbr, hh, hnd, hdisj⟩ := tryInsertBrands_some h2
    constructor
    · rw [hbr, List.map_append, assignBrandIds_names, List.nodup_append]
      refine ⟨hok.1, hnd, ?_⟩
      intro a ha hanew
      obtain ⟨e, he, rfl⟩ := List.mem_map.mp ha
      obtain ⟨bb, hbb, hbname⟩ := List.mem_map.mp hanew
      exact hdisj bb hbb e he hbname.symm
    · rw [hh]; exact hok.2

/-- The history phase preserves the storage uniqueness invariants. -/
theorem histPhase_ok {s1 : DB} {h : List HistIn}
    (hok : DB.ok s1) : DB.ok (histPhase s1 h) := by
  rcases histPhase_cases s1 h with ⟨-, heq⟩ | ⟨-, -, heq⟩ | ⟨-, ht⟩
  · rw [heq]; exact hok
  · rw [heq]; exact hok
  · obtain ⟨hbr, hh, -, hnd, hdisj⟩ := tryInsertHist_some ht
    constructor
    · rw [hbr]; exact hok.1
    · rw [hh, List.map_append, List.nodup_append]
      refine ⟨hok.2, hnd, ?_⟩
      intro a ha hanew
      obtain ⟨e, he, rfl⟩ := List.mem_map.mp ha
      obtain ⟨r0, hr0, hr0k⟩ := List.mem_map.mp hanew
      exact hdisj r0 hr0 e he hr0k.symm

/-- C2: the persist step is idempotent: running `upsert_data` a second
time against the same input data on the state the first run produced is a
no-op, so a second run creates no duplicate rows in either table; and it
preserves the storage uniqueness invariants (unique `BrandName`, unique
`(Name, BrandID, ScrapedDate)`), uniqueness violations being handled as a
benign rollback of the conflicting batch rather than a fatal error. -/
theorem upsert_data_idempotent (s : DB) (b : List BrandIn) (h : List HistIn) :
    upsert_data (upsert_data s b h) b h = upsert_data s b h ∧
    (DB.ok s → DB.ok (upsert_data s b h)) := by
  cases hbe : b.isEmpty with
  | true =>
    have e0 := upsert_empty_brands s b h hbe
    rw [e0]
    exact ⟨e0, fun hok => hok⟩
  | false =>
  cases hne : h.isEmpty with
  | true =>
    have hnil : h = [] := List.isEmpty_iff.mp hne
    subst hnil
    exact ⟨rfl, fun hok => hok⟩
  | false =>
    cases hb : brandPhase s b with
    | none =>
      have e1 := upsert_unfold_none hne hb
      rw [e1]
      exact ⟨e1, fun hok => hok⟩
    | some s1 =>
      have e1 := upsert_unfold hne hbe hb
      have hrb : (histPhase s1 h).brands = s1.brands := histPhase_brands s1 h
      have hnames := brandPhase_names hb
      have hb2 : brandPhase (histPhase s1 h) b = some (histPhase s1 h) :=
        brandPhase_of_names (by
          intro bi hbi
          rw [hrb]
          exact hnames bi hbi)
      have hprep : prepareHist (histPhase s1 h) h = prepareHist s1 h :=
        prepareHist_congr hrb h
      constructor
      · rw [e1, upsert_unfold hne hbe hb2]
        rcases histPhase_cases (histPhase s1 h) h with
          ⟨-, heq2⟩ | ⟨-, -, heq2⟩ | ⟨hfne2, ht2⟩
        · exact heq2
        · exact heq2
        · exfalso
          rw [hprep] at hfne2
          rcases histPhase_cases s1 h with ⟨hfe, heq⟩ | ⟨hfne, ht, heq⟩ | ⟨hfne, ht⟩
          · -- first run had an empty prepared batch; so does the second
            rw [hfe] at hfne2
            exact absurd hfne2 (by simp)
          · -- first run rolled back; the second run repeats the same failing
            -- insert on the same state
            rw [hprep, heq] at ht2
            rw [ht] at ht2
            exact absurd ht2 (by simp)
          · -- first run inserted the batch; every row of the identical second
            -- batch now collides with a stored row
            obtain ⟨hbr2, hh2, -, -, -⟩ := tryInsertHist_some ht
            obtain ⟨-, -, -, -, hall2⟩ := tryInsertHist_some ht2
            cases hl : prepareHist s1 h with
            | nil => rw [hl] at hfne; simp at hfne
            | cons r0 rest =>
              have hr0 : r0 ∈ prepareHist (histPhase s1 h) h := by
                rw [hprep, hl]; exact List.mem_cons_self r0 rest
              have hr0' : r0 ∈ (histPhase s1 h).hist := by
                rw [hh2, hl]
                exact List.mem_append_right _ (List.mem_cons_self r0 rest)
              exact hall2 r0 hr0 r0 hr0' rfl
      · intro hok
        rw [e1]
        exact histPhase_ok (brandPhase_ok hb hok)

theorem upsert_data_idempotent_witness :
    (upsert_data (upsert_data exDB [brandInA, brandInC] [exHist1])
        [brandInA, brandInC] [exHist1]
      = upsert_data exDB [brandInA, brandInC] [exHist1]) ∧
    DB.ok exDB ∧ DB.ok (upsert_data exDB [brandInA, brandInC] [exHist1]) :=
  ⟨(upsert_data_idempotent exDB [brandInA, brandInC] [exHist1]).1,
    by decide,
    (upsert_data_idempotent exDB [brandInA, brandInC] [exHist1]).2 (by decide)⟩

end TikiPipeline
